import Mathlib

/-!
Verification of the latency-dash metrics core.

This file gives a shallow embedding of the backend metrics calculator
(backend/calculator/calculator.go), the WebSocket broadcast layer
(server package) and, where the repository only documents a component,
a model built from the specification text, together with proofs and
refutations of the specified properties.

Modelling conventions:
* Go float64 arithmetic is idealised as exact rational arithmetic (ℚ).
  Timestamps are int64 nanoseconds (ℤ); milliseconds are ℚ values
  obtained by exact division by 10^6.
* Go int64 arithmetic is modelled on ℤ; Go integer division and the
  int64(...) float-to-int conversion truncate toward zero, which is
  Int.tdiv on the numerator/denominator representation.
* The container/ring circular buffer of size MaxSamples is modelled as a
  list of MaxSamples optional timestamps together with the index of the
  cell the ring pointer currently designates; ring.Next() is index
  increment mod MaxSamples.
* Go map iteration order is unspecified; a map's enumeration is modelled
  as a list of key/value pairs whose order records the order the
  iteration happened to produce.
-/

attribute [local semireducible] Rat.mul Rat.sub Rat.inv Rat.add

namespace LatencyDash

/-- MaxSamples is the maximum number of samples kept per key (source constant). -/
def MaxSamples : ℕ := 1000

/-- P90Percentile is the percentile value for the 90th percentile (source constant). -/
def P90Percentile : ℕ := 90

/-- Nanoseconds per millisecond, the source's time conversion constant. -/
def millisecondsToNanoseconds : ℤ := 1000000

/-- One inbound observation (proto.Event): target, key, server-side send
timestamp in nanoseconds, payload size, and metadata enumerated in the
order the runtime iterates the map. -/
structure Event where
  targetId : String
  key : String
  serverTimestamp : ℤ
  payloadSize : ℕ
  metadata : List (String × String)
deriving DecidableEq

/-- State of one Metrics value: the ring cells, the ring pointer, and the
atomically updated count/min/max/avg/p90 fields (min..p90 in nanoseconds). -/
structure MState where
  cells : List (Option ℚ)
  pos : ℕ
  count : ℕ
  min : ℤ
  max : ℤ
  avg : ℤ
  p90 : ℤ
deriving DecidableEq

/-- Conversion of a nanosecond timestamp to milliseconds, mirroring
float64(ts) / float64(time.Millisecond) with exact arithmetic. -/
def msOf (tsNs : ℤ) : ℚ := (tsNs : ℚ) / 1000000

/-- Millisecond timestamp of an event. -/
def msOfEvent (e : Event) : ℚ := msOf e.serverTimestamp

/-- Go's int64(x) conversion of a float value: truncation toward zero. -/
def truncToInt (q : ℚ) : ℤ := Int.tdiv q.num (q.den : ℤ)

/-- Interval computation at the top of Metrics.Update: zero for the first
event (or an unwritten current cell), otherwise the difference between the
current timestamp and the ring cell the pointer designates, clamped to be
non-negative. -/
def computeIntervalMs (s : MState) (currentTimeMs : ℚ) : ℚ :=
  match s.cells.getD s.pos none with
  | none => 0
  | some lastEventTimeMs =>
    if 0 < s.count then
      (if currentTimeMs - lastEventTimeMs < 0 then 0 else currentTimeMs - lastEventTimeMs)
    else 0

/-- Metrics.calculatePercentile: with at most one sample it returns avg
converted to milliseconds; otherwise it walks the ring for count steps
starting at the cell the pointer currently designates, collects the
non-nil timestamps, forms consecutive differences, keeps the non-negative
ones, sorts ascending and indexes at int((len-1)*p/100), clamped to the
last index. Returns milliseconds. -/
def calculatePercentile (s : MState) (p : ℕ) : ℚ :=
  if s.count ≤ 1 then (s.avg : ℚ) / (millisecondsToNanoseconds : ℚ)
  else
    let timestamps : List ℚ :=
      (List.range s.count).filterMap (fun i => s.cells.getD ((s.pos + i) % MaxSamples) none)
    let samples : List ℚ :=
      (List.zipWith (fun a b => a - b) timestamps.tail timestamps).filter
        (fun d => decide (0 ≤ d))
    if samples.length = 0 then 0
    else
      let sorted := List.insertionSort (fun a b : ℚ => a ≤ b) samples
      let i0 := (samples.length - 1) * p / 100
      let index := if samples.length ≤ i0 then samples.length - 1 else i0
      sorted.getD index 0

/-- Metrics.Update: advance the ring pointer, store the millisecond
timestamp, then either initialise count/min/max/avg (first event) or fold
the clamped interval into min/max/avg and bump count; finally recompute
p90 from the ring and store it in nanoseconds. -/
def update (s : MState) (e : Event) : MState :=
  let currentTimeMs := msOfEvent e
  let intervalMs := computeIntervalMs s currentTimeMs
  let pos1 := (s.pos + 1) % MaxSamples
  let cells1 := s.cells.set pos1 (some currentTimeMs)
  let intervalNs := truncToInt (intervalMs * (millisecondsToNanoseconds : ℚ))
  if s.count = 0 then
    let s1 : MState :=
      { cells := cells1, pos := pos1, count := 1,
        min := intervalNs, max := intervalNs, avg := intervalNs, p90 := s.p90 }
    { s1 with
        p90 := truncToInt (calculatePercentile s1 P90Percentile * (millisecondsToNanoseconds : ℚ)) }
  else
    let s1 : MState :=
      { cells := cells1, pos := pos1, count := s.count + 1,
        min := min s.min intervalNs, max := max s.max intervalNs,
        avg := Int.tdiv (s.avg * (s.count : ℤ) + intervalNs) ((s.count : ℤ) + 1),
        p90 := s.p90 }
    { s1 with
        p90 := truncToInt (calculatePercentile s1 P90Percentile * (millisecondsToNanoseconds : ℚ)) }

/-- Fresh Metrics value: ring.New(MaxSamples) with every cell empty, all
numeric fields zero. -/
def initState : MState :=
  { cells := List.replicate MaxSamples none, pos := 0, count := 0,
    min := 0, max := 0, avg := 0, p90 := 0 }

/-- Sequential processing of a list of events for one series, the
single-writer aggregation loop applied to that series. -/
def runUpdates (evs : List Event) : MState :=
  evs.foldl update initState

/-- Timestamps currently retained in the sample window, in cell order. -/
def retained (s : MState) : List ℚ :=
  s.cells.filterMap id

/-- getOrCreateMetrics key derivation: target ":" key, then one ":k=v"
fragment per metadata pair in the order the map iteration yields them. -/
def metricsKey (e : Event) : String :=
  let base := e.targetId ++ ":" ++ e.key
  if 0 < e.metadata.length then
    e.metadata.foldl (fun acc kv => acc ++ ":" ++ kv.1 ++ "=" ++ kv.2) base
  else base

/-- Index (1-based) of the last event at or before event n that wrote ring
cell j: cell j holds the timestamp of event lastHit n j, or nothing when
lastHit n j = 0. -/
def lastHit (n j : ℕ) : ℕ := n - ((n + MaxSamples - j) % MaxSamples)

end LatencyDash

namespace LatencyDash

lemma update_cells (s : MState) (e : Event) :
    (update s e).cells = s.cells.set ((s.pos + 1) % MaxSamples) (some (msOfEvent e)) := by
  unfold update
  split <;> rfl

lemma update_pos (s : MState) (e : Event) :
    (update s e).pos = (s.pos + 1) % MaxSamples := by
  unfold update
  split <;> rfl

lemma update_count (s : MState) (e : Event) :
    (update s e).count = s.count + 1 := by
  unfold update
  split
  case isTrue h => simp [h]
  case isFalse h => rfl

lemma runUpdates_append (evs : List Event) (e : Event) :
    runUpdates (evs ++ [e]) = update (runUpdates evs) e := by
  simp [runUpdates, List.foldl_append]

lemma runUpdates_count (evs : List Event) :
    (runUpdates evs).count = evs.length := by
  induction evs using List.reverseRecOn with
  | nil => rfl
  | append_singleton evs e ih =>
    rw [runUpdates_append, update_count, ih]
    simp

lemma getD_set (l : List (Option ℚ)) (i j : ℕ) (a : Option ℚ) :
    (l.set i a).getD j none = if i = j ∧ j < l.length then a else l.getD j none := by
  rw [List.getD_eq_getElem?_getD, List.getD_eq_getElem?_getD, List.getElem?_set]
  by_cases h : i = j
  · subst h
    by_cases h2 : i < l.length
    · simp [h2]
    · simp [h2, List.getElem?_eq_none (le_of_not_lt h2)]
  · simp [h]

lemma getD_replicate (n j : ℕ) :
    (List.replicate n (none : Option ℚ)).getD j none = none := by
  rw [List.getD_eq_getElem?_getD]
  rcases Nat.lt_or_ge j n with h | h
  · simp [List.getElem?_replicate, h]
  · rw [List.getElem?_eq_none (by simpa using h)]
    rfl

lemma run_char (evs : List Event) :
    (runUpdates evs).cells.length = MaxSamples ∧
    (runUpdates evs).pos = evs.length % MaxSamples ∧
    ∀ j, j < MaxSamples →
      (runUpdates evs).cells.getD j none =
        if 1 ≤ lastHit evs.length j then
          some ((evs.map msOfEvent).getD (lastHit evs.length j - 1) 0)
        else none := by
  induction evs using List.reverseRecOn with
  | nil =>
    refine ⟨by simp [runUpdates, initState], by simp [runUpdates, initState], ?_⟩
    intro j hj
    rw [if_neg]
    · exact getD_replicate _ _
    · simp [lastHit]
  | append_singleton evs e ih =>
    obtain ⟨ihlen, ihpos, ihget⟩ := ih
    rw [runUpdates_append]
    refine ⟨?_, ?_, ?_⟩
    · rw [update_cells, List.length_set, ihlen]
    · rw [update_pos, ihpos, List.length_append]
      simp only [MaxSamples, List.length_singleton]
      omega
    · intro j hj
      rw [update_cells, getD_set, ihlen, ihpos, List.length_append, List.length_singleton]
      by_cases hj2 : (evs.length % MaxSamples + 1) % MaxSamples = j
      · rw [if_pos ⟨hj2, hj⟩]
        have hlh : lastHit (evs.length + 1) j = evs.length + 1 := by
          simp only [lastHit, MaxSamples] at hj hj2 ⊢
          omega
        rw [hlh, if_pos (Nat.le_add_left 1 evs.length)]
        have hidx : evs.length + 1 - 1 = (evs.map msOfEvent).length := by simp
        rw [List.getD_eq_getElem?_getD, hidx, List.map_append, List.map_singleton,
          List.getElem?_concat_length]
        rfl
      · rw [if_neg (fun hc => hj2 hc.1), ihget j hj]
        have hlh : lastHit (evs.length + 1) j = lastHit evs.length j := by
          simp only [lastHit, MaxSamples] at hj hj2 ⊢
          omega
        rw [hlh]
        by_cases hge : 1 ≤ lastHit evs.length j
        · rw [if_pos hge, if_pos hge]
          have hlt : lastHit evs.length j - 1 < (evs.map msOfEvent).length := by
            have : lastHit evs.length j ≤ evs.length := Nat.sub_le _ _
            simp only [List.length_map]
            omega
          rw [List.getD_eq_getElem?_getD, List.getD_eq_getElem?_getD, List.map_append,
            List.map_singleton, List.getElem?_append_left hlt]
        · rw [if_neg hge, if_neg hge]

lemma run_cells_length (evs : List Event) : (runUpdates evs).cells.length = MaxSamples :=
  (run_char evs).1

lemma run_pos (evs : List Event) : (runUpdates evs).pos = evs.length % MaxSamples :=
  (run_char evs).2.1

lemma run_cells_getD (evs : List Event) (j : ℕ) (hj : j < MaxSamples) :
    (runUpdates evs).cells.getD j none =
      if 1 ≤ lastHit evs.length j then
        some ((evs.map msOfEvent).getD (lastHit evs.length j - 1) 0)
      else none :=
  (run_char evs).2.2 j hj

lemma run_last_cell (evs : List Event) (e : Event) :
    (runUpdates (evs ++ [e])).cells.getD ((runUpdates (evs ++ [e])).pos) none =
      some (msOfEvent e) := by
  have hpos := run_pos (evs ++ [e])
  have hlt : (evs ++ [e]).length % MaxSamples < MaxSamples :=
    Nat.mod_lt _ (by simp [MaxSamples])
  rw [hpos, run_cells_getD _ _ hlt]
  have hn : (evs ++ [e]).length = evs.length + 1 := by simp
  have hlh : lastHit (evs.length + 1) ((evs.length + 1) % MaxSamples) = evs.length + 1 := by
    simp only [lastHit, MaxSamples]
    omega
  rw [hn, hlh, if_pos (Nat.le_add_left 1 evs.length)]
  have hidx : evs.length + 1 - 1 = (evs.map msOfEvent).length := by simp
  rw [List.getD_eq_getElem?_getD, hidx, List.map_append, List.map_singleton,
    List.getElem?_concat_length]
  rfl

lemma truncToInt_zero : truncToInt 0 = 0 := rfl

lemma computeIntervalMs_init (q : ℚ) : computeIntervalMs initState q = 0 := by
  unfold computeIntervalMs
  rw [show initState.cells.getD initState.pos none = none from getD_replicate _ _]

lemma update_min_of_ne (s : MState) (e : Event) (h : s.count ≠ 0) :
    (update s e).min =
      min s.min (truncToInt (computeIntervalMs s (msOfEvent e) * (millisecondsToNanoseconds : ℚ))) := by
  unfold update
  split
  case isTrue h2 => exact absurd h2 h
  case isFalse h2 => rfl

lemma update_max_of_ne (s : MState) (e : Event) (h : s.count ≠ 0) :
    (update s e).max =
      max s.max (truncToInt (computeIntervalMs s (msOfEvent e) * (millisecondsToNanoseconds : ℚ))) := by
  unfold update
  split
  case isTrue h2 => exact absurd h2 h
  case isFalse h2 => rfl

lemma update_avg_of_ne (s : MState) (e : Event) (h : s.count ≠ 0) :
    (update s e).avg =
      Int.tdiv
        (s.avg * (s.count : ℤ) +
          truncToInt (computeIntervalMs s (msOfEvent e) * (millisecondsToNanoseconds : ℚ)))
        ((s.count : ℤ) + 1) := by
  unfold update
  split
  case isTrue h2 => exact absurd h2 h
  case isFalse h2 => rfl

lemma update_min_of_eq (s : MState) (e : Event) (h : s.count = 0) :
    (update s e).min =
      truncToInt (computeIntervalMs s (msOfEvent e) * (millisecondsToNanoseconds : ℚ)) := by
  unfold update
  split
  case isTrue h2 => rfl
  case isFalse h2 => exact absurd h h2

lemma update_max_of_eq (s : MState) (e : Event) (h : s.count = 0) :
    (update s e).max =
      truncToInt (computeIntervalMs s (msOfEvent e) * (millisecondsToNanoseconds : ℚ)) := by
  unfold update
  split
  case isTrue h2 => rfl
  case isFalse h2 => exact absurd h h2

lemma update_avg_of_eq (s : MState) (e : Event) (h : s.count = 0) :
    (update s e).avg =
      truncToInt (computeIntervalMs s (msOfEvent e) * (millisecondsToNanoseconds : ℚ)) := by
  unfold update
  split
  case isTrue h2 => rfl
  case isFalse h2 => exact absurd h h2

lemma calculatePercentile_congr (s t : MState) (hc : s.cells = t.cells) (hp : s.pos = t.pos)
    (hn : s.count = t.count) (ha : s.avg = t.avg) (p : ℕ) :
    calculatePercentile s p = calculatePercentile t p := by
  unfold calculatePercentile
  rw [hc, hp, hn, ha]

lemma update_p90 (s : MState) (e : Event) :
    (update s e).p90 =
      truncToInt (calculatePercentile (update s e) P90Percentile *
        (millisecondsToNanoseconds : ℚ)) := by
  unfold update
  split
  case isTrue h =>
    exact congrArg (fun q => truncToInt (q * (millisecondsToNanoseconds : ℚ)))
      (calculatePercentile_congr _ _ rfl rfl rfl rfl P90Percentile)
  case isFalse h =>
    exact congrArg (fun q => truncToInt (q * (millisecondsToNanoseconds : ℚ)))
      (calculatePercentile_congr _ _ rfl rfl rfl rfl P90Percentile)

/-- C3: for every fresh series, processing the first event computes interval
zero, sets min, max, average and p90 all to zero, and makes the sample count
exactly 1. -/
theorem c3_first_event_zeroes (e : Event) :
    computeIntervalMs initState (msOfEvent e) = 0 ∧
    (runUpdates [e]).count = 1 ∧
    (runUpdates [e]).min = 0 ∧
    (runUpdates [e]).max = 0 ∧
    (runUpdates [e]).avg = 0 ∧
    (runUpdates [e]).p90 = 0 := by
  have hrun : runUpdates [e] = update initState e := rfl
  have hzero : truncToInt (computeIntervalMs initState (msOfEvent e) *
      (millisecondsToNanoseconds : ℚ)) = 0 := by
    rw [computeIntervalMs_init, zero_mul, truncToInt_zero]
  have hcount : (update initState e).count = 1 := by
    rw [update_count]
    rfl
  have havg : (update initState e).avg = 0 := by
    rw [update_avg_of_eq _ _ rfl, hzero]
  refine ⟨computeIntervalMs_init _, ?_, ?_, ?_, ?_, ?_⟩
  · rw [hrun]
    exact hcount
  · rw [hrun, update_min_of_eq _ _ rfl, hzero]
  · rw [hrun, update_max_of_eq _ _ rfl, hzero]
  · rw [hrun]
    exact havg
  · rw [hrun, update_p90]
    unfold calculatePercentile
    rw [if_pos (by simp [hcount]), havg]
    norm_num [truncToInt_zero]

/-- C4: when the next event's timestamp precedes the previous one's, the
computed interval is clamped to zero, and the event is still processed
normally (the sample count grows; no error path exists in Update). -/
theorem c4_negative_interval_clamped (evs : List Event) (e1 e2 : Event)
    (h : e2.serverTimestamp < e1.serverTimestamp) :
    computeIntervalMs (runUpdates (evs ++ [e1])) (msOfEvent e2) = 0 ∧
    (update (runUpdates (evs ++ [e1])) e2).count = (runUpdates (evs ++ [e1])).count + 1 := by
  have hcell := run_last_cell evs e1
  have hlt : msOfEvent e2 - msOfEvent e1 < 0 := by
    have hms : msOfEvent e2 < msOfEvent e1 := by
      unfold msOfEvent msOf
      exact (div_lt_div_iff_of_pos_right (by norm_num)).mpr (by exact_mod_cast h)
    linarith
  refine ⟨?_, update_count _ _⟩
  unfold computeIntervalMs
  rw [hcell]
  show (if 0 < (runUpdates (evs ++ [e1])).count then
      if msOfEvent e2 - msOfEvent e1 < 0 then 0 else msOfEvent e2 - msOfEvent e1
    else 0) = 0
  rw [if_pos ?hc, if_pos hlt]
  case hc =>
    rw [runUpdates_count]
    simp

/-- Concrete instance of c4_negative_interval_clamped: a 1ms-earlier second
event yields a clamped zero interval. -/
def c4Ev1 : Event := ⟨"T", "K", 1000000, 0, []⟩

/-- Second event of the c4 witness, with an earlier timestamp. -/
def c4Ev2 : Event := ⟨"T", "K", 0, 0, []⟩

/-- Witness for C4 at a concrete out-of-order pair. -/
theorem c4_negative_interval_clamped_witness :
    c4Ev2.serverTimestamp < c4Ev1.serverTimestamp ∧
    computeIntervalMs (runUpdates [c4Ev1]) (msOfEvent c4Ev2) = 0 :=
  ⟨by decide, (c4_negative_interval_clamped [] c4Ev1 c4Ev2 (by decide)).1⟩

/-- C10: across updates of one series the stored minimum never increases, the
stored maximum never decreases, and the sample count grows by exactly one per
processed event — eviction of window samples never relaxes or resets them. -/
theorem c10_monotone_min_max_count (evs : List Event) (e : Event) :
    (runUpdates evs).count = evs.length ∧
    (runUpdates (evs ++ [e])).count = (runUpdates evs).count + 1 ∧
    (runUpdates (evs ++ [e])).min ≤ (runUpdates evs).min ∧
    (runUpdates evs).max ≤ (runUpdates (evs ++ [e])).max := by
  refine ⟨runUpdates_count evs, ?_, ?_, ?_⟩
  · rw [runUpdates_append, update_count]
  · rw [runUpdates_append]
    by_cases hn : evs = []
    · subst hn
      have h0 : truncToInt (computeIntervalMs initState (msOfEvent e) *
          (millisecondsToNanoseconds : ℚ)) = 0 := by
        rw [computeIntervalMs_init, zero_mul, truncToInt_zero]
      show (update initState e).min ≤ initState.min
      rw [update_min_of_eq _ _ rfl, h0]
      exact le_refl 0
    · have hc : (runUpdates evs).count ≠ 0 := by
        rw [runUpdates_count]
        exact fun hh => hn (List.length_eq_zero.mp hh)
      rw [update_min_of_ne _ _ hc]
      exact min_le_left _ _
  · rw [runUpdates_append]
    by_cases hn : evs = []
    · subst hn
      have h0 : truncToInt (computeIntervalMs initState (msOfEvent e) *
          (millisecondsToNanoseconds : ℚ)) = 0 := by
        rw [computeIntervalMs_init, zero_mul, truncToInt_zero]
      show initState.max ≤ (update initState e).max
      rw [update_max_of_eq _ _ rfl, h0]
      exact le_refl 0
    · have hc : (runUpdates evs).count ≠ 0 := by
        rw [runUpdates_count]
        exact fun hh => hn (List.length_eq_zero.mp hh)
      rw [update_max_of_ne _ _ hc]
      exact le_max_left _ _

/-- Follows the specification text, not the source (reference definition for
comparison): nearest-rank percentile of a list of recorded intervals in
milliseconds — discard negatives, sort ascending, index at
floor((len-1) * 90 / 100) clamped to the last index. -/
def specPercentileNearestRank (intervals : List ℚ) : ℚ :=
  let sorted := List.insertionSort (fun a b : ℚ => a ≤ b)
    (intervals.filter (fun d => decide (0 ≤ d)))
  sorted.getD (min ((sorted.length - 1) * 90 / 100) (sorted.length - 1)) 0

/-- Event at a millisecond timestamp used by the literal p90 example. -/
def evAtMs (tMs : ℤ) : Event := ⟨"demo-target", "orders", tMs * 1000000, 0, []⟩

/-- Eleven strictly increasing events whose ten consecutive intervals are
100, 200, ..., 1000 milliseconds, in that order. -/
def c1Events : List Event :=
  [evAtMs 0, evAtMs 100, evAtMs 300, evAtMs 600, evAtMs 1000, evAtMs 1500,
   evAtMs 2100, evAtMs 2800, evAtMs 3600, evAtMs 4500, evAtMs 5500]

/-- C1: the spec-side nearest-rank computation on the ten recorded intervals
100..1000 ms indeed yields 900 ms, but the source's percentile computation on
the same eleven events yields 0: walking the ring forward from the newest
cell reaches only unwritten cells while the window is not full, so only one
timestamp is extracted and no interval survives. The stored p90 is 0 ns, not
the claimed 900 ms (900000000 ns); count and max confirm the setup. -/
theorem c1_p90_literal_example_diverges :
    specPercentileNearestRank
        [100, 200, 300, 400, 500, 600, 700, 800, 900, 1000] = 900 ∧
    (runUpdates c1Events).count = 11 ∧
    (runUpdates c1Events).max = 1000000000 ∧
    (runUpdates c1Events).p90 = 0 ∧
    (runUpdates c1Events).p90 ≠ 900 * 1000000 := by
  refine ⟨by decide, by decide, by decide, by decide, by decide⟩

/-- First enumeration order of the metadata map for the C5 example. -/
def c5Ev1 : Event := ⟨"T", "K", 0, 0, [("a", "1"), ("b", "2")]⟩

/-- Second enumeration order of the same metadata map. -/
def c5Ev2 : Event := ⟨"T", "K", 0, 0, [("b", "2"), ("a", "1")]⟩

/-- C5: two events with the same target, key and metadata map, whose map
iteration merely enumerates the pairs in a different order, are mapped by
getOrCreateMetrics to different series keys: the canonicalization is not
order-independent, because the key is built from the map's native iteration
order without sorting. -/
theorem c5_metadata_order_dependent :
    c5Ev1.targetId = c5Ev2.targetId ∧
    c5Ev1.key = c5Ev2.key ∧
    c5Ev1.metadata.Perm c5Ev2.metadata ∧
    metricsKey c5Ev1 ≠ metricsKey c5Ev2 := by
  refine ⟨rfl, rfl, List.Perm.swap _ _ _, by decide⟩

/-- Capacity of the buffered inbound event channel (make(chan, 1000)). -/
def updateChCapacity : ℕ := 1000

/-- Calculator state visible to ProcessEvent: the buffered inbound queue and
whether Stop has closed the stop channel. -/
structure CalcState where
  queue : List Event
  stopped : Bool
deriving DecidableEq

/-- Possible results of the select statement in ProcessEvent, as
(resulting queue, returned error) pairs: the send case is ready when the
buffered channel has room, the stop case is ready when the calculator is
stopping, and the default case fires only when neither is ready.
Go chooses uniformly among ready cases, so the list collects every
possible outcome. -/
def processEventOutcomes (c : CalcState) (e : Event) :
    List (List Event × Except String Unit) :=
  (if c.queue.length < updateChCapacity then [(c.queue ++ [e], Except.ok ())] else []) ++
  (if c.stopped then [(c.queue, Except.error "calculator is stopping")] else []) ++
  (if c.queue.length < updateChCapacity ∨ c.stopped = true then []
   else [(c.queue, Except.error "event queue full")])

/-- C7: with the calculator running and the inbound queue full, ProcessEvent
has exactly one possible outcome: it returns the error "event queue full"
immediately via the select default case (no blocking case is ready), and the
queue is unchanged — the event is dropped, not retried, and no state is
torn down. -/
theorem c7_queue_full_fails_fast (c : CalcState) (e : Event)
    (hstop : c.stopped = false) (hfull : c.queue.length = updateChCapacity) :
    processEventOutcomes c e = [(c.queue, Except.error "event queue full")] := by
  unfold processEventOutcomes
  rw [hstop, hfull]
  simp

/-- Witness for C7: a concrete full queue of 1000 events. -/
theorem c7_queue_full_fails_fast_witness :
    (CalcState.mk (List.replicate 1000 c4Ev1) false).stopped = false ∧
    (CalcState.mk (List.replicate 1000 c4Ev1) false).queue.length = updateChCapacity ∧
    processEventOutcomes (CalcState.mk (List.replicate 1000 c4Ev1) false) c4Ev2 =
      [(List.replicate 1000 c4Ev1, Except.error "event queue full")] :=
  ⟨rfl, (List.length_replicate 1000 c4Ev1).trans rfl,
    c7_queue_full_fails_fast _ c4Ev2 rfl ((List.length_replicate 1000 c4Ev1).trans rfl)⟩

/-- Outbound metrics update record (proto.MetricsUpdate). -/
structure MetricsUpdate where
  targetId : String
  key : String
  minMs : ℚ
  maxMs : ℚ
  avgMs : ℚ
  p90Ms : ℚ
  count : ℤ
  lastUpdated : ℤ
  metadata : List (String × String)
deriving DecidableEq

/-- One connected WebSocket consumer. The server code stores only the
connection itself; the subscriptions field records what the consumer has
requested via SubscriptionMessage, which handleSubscription acknowledges
(and answers with a full snapshot) but never records into any filter
structure, so Broadcast cannot consult it. -/
structure Consumer where
  id : ℕ
  subscriptions : List (String × Bool)
deriving DecidableEq

/-- State of the WebSocketServer: the set of registered clients. -/
structure WSState where
  clients : List Consumer
deriving DecidableEq

/-- Broadcast delivers the serialized update to every registered client in
turn; no subscription or split-preference filter is applied
(failed writers are dropped from the client set, which does not affect
who is attempted). -/
def Broadcast (s : WSState) (_update : MetricsUpdate) : List Consumer :=
  s.clients

/-- Modelled from the spec: "for every connected Consumer with a
subscription entry matching (update.target, splitPreference)". The source
has no such predicate — this is the matching test the specification
requires; the claim is settled by comparing Broadcast against it. -/
def hasMatchingSubscription (c : Consumer) (u : MetricsUpdate) (split : Bool) : Bool :=
  c.subscriptions.any (fun entry => entry.1 == u.targetId && entry.2 == split)

/-- A consumer subscribed to a different target than the broadcast update. -/
def c8Consumer : Consumer := ⟨7, [("other-target", false)]⟩

/-- A metrics update for a target the consumer never subscribed to. -/
def c8Update : MetricsUpdate := ⟨"T", "K", 0, 0, 0, 0, 1, 0, []⟩

/-- C8: the broadcast hub does not filter by subscription: a connected
consumer with no subscription entry matching the update's target (under
either split preference) still receives the update, refuting the claim that
updates are delivered only to matching subscribers. -/
theorem c8_broadcast_ignores_subscriptions :
    c8Consumer ∈ Broadcast ⟨[c8Consumer]⟩ c8Update ∧
    hasMatchingSubscription c8Consumer c8Update true = false ∧
    hasMatchingSubscription c8Consumer c8Update false = false := by
  refine ⟨by decide, by decide, by decide⟩

/-- Modelled from the spec: the Target Monitor / Timeout Registry of
spec sections 4.3 and 4.4 (per-target subscriber set, quiescent-since
marker and owned series statistics). The repository's design document
describes this component ("per-target monitors with configurable timeout",
"continues tracking for N seconds after last unsubscribe") but no source
file implements it, so it is modelled from the specification text. -/
structure TargetMonitor where
  subscribers : List (ℕ × Bool)
  quiescentSince : Option ℤ
  series : List (String × MState)

/-- Modelled from the spec: the registry mapping each target to its monitor. -/
def Registry : Type := String → Option TargetMonitor

/-- Modelled from the spec: apply one subscribe/unsubscribe request to a
monitor. Adds or removes the consumer; when the subscriber set becomes
empty the current time is recorded as the quiescent-since marker, and when
it becomes non-empty the marker is cleared; the owned series are never
touched. -/
def applySubscription (m : TargetMonitor) (consumer : ℕ) (subscribed : Bool)
    (split : Bool) (now : ℤ) : TargetMonitor :=
  let subs :=
    if subscribed then (consumer, split) :: m.subscribers.filter (fun p => !(p.1 == consumer))
    else m.subscribers.filter (fun p => !(p.1 == consumer))
  { subscribers := subs,
    quiescentSince :=
      if subs.isEmpty then (if m.subscribers.isEmpty then m.quiescentSince else some now)
      else none,
    series := m.series }

/-- Modelled from the spec: updateSubscription(target, consumerId,
subscribed, splitByMetadata) — look up the monitor (creating an empty one
on first subscription) and apply the request; other targets are untouched. -/
def updateSubscription (r : Registry) (target : String) (consumer : ℕ)
    (subscribed : Bool) (split : Bool) (now : ℤ) : Registry :=
  fun t =>
    if t = target then
      some (applySubscription
        ((r target).getD { subscribers := [], quiescentSince := none, series := [] })
        consumer subscribed split now)
    else r t

/-- Modelled from the spec: whether the periodic sweep keeps a monitor — it
is removed exactly when its subscriber set is empty and its quiescent-since
marker is older than the grace period. -/
def keepMonitor (m : TargetMonitor) (now grace : ℤ) : Bool :=
  !(m.subscribers.isEmpty &&
    (match m.quiescentSince with
     | some t0 => decide (grace < now - t0)
     | none => false))

/-- Modelled from the spec: sweep(now) — destroy every quiescent monitor
whose grace period has expired; the only path that destroys series state. -/
def sweep (r : Registry) (now grace : ℤ) : Registry :=
  fun t =>
    match r t with
    | some m => if keepMonitor m now grace then some m else none
    | none => none

/-- C9: unsubscribing a target's consumer and resubscribing within the grace
period leaves the target's series statistics unmutated: the intervening
sweep keeps the monitor because its quiescent-since marker is within the
grace period, and subscription changes never touch series state. Moreover
the sweep never destroys a monitor that still has subscribers, so the sweep
of an expired quiescent target is the only destruction path. -/
theorem c9_grace_period_preserves_series (r : Registry) (target : String)
    (consumer : ℕ) (split : Bool) (t1 t2 t3 grace : ℤ) (m0 : TargetMonitor)
    (hm : r target = some m0)
    (hsub : m0.subscribers.isEmpty = false)
    (hgrace : t2 - t1 ≤ grace) :
    ((updateSubscription (sweep (updateSubscription r target consumer false split t1)
        t2 grace) target consumer true split t3) target).map TargetMonitor.series =
      some m0.series ∧
    (∀ tgt m, r tgt = some m → m.subscribers.isEmpty = false →
      sweep r t2 grace tgt = some m) := by
  have self : ∀ (rr : Registry) (csm : ℕ) (sb sp : Bool) (now : ℤ),
      (updateSubscription rr target csm sb sp now) target =
        some (applySubscription
          ((rr target).getD { subscribers := [], quiescentSince := none, series := [] })
          csm sb sp now) := by
    intro rr csm sb sp now
    unfold updateSubscription
    rw [if_pos rfl]
  constructor
  · have hR1 : (updateSubscription r target consumer false split t1) target =
        some (applySubscription m0 consumer false split t1) := by
      rw [self, hm]
      rfl
    have hkeep : keepMonitor (applySubscription m0 consumer false split t1) t2 grace = true := by
      unfold keepMonitor applySubscription
      by_cases hempty : (List.filter (fun p => !(p.1 == consumer)) m0.subscribers).isEmpty = true
      · simp only [hempty, hsub, if_true, if_false, Bool.false_eq_true]
        simp only [Bool.true_and, Bool.not_eq_true']
        exact decide_eq_false (by omega)
      · simp [hempty]
    have hsweep : (sweep (updateSubscription r target consumer false split t1) t2 grace) target
        = some (applySubscription m0 consumer false split t1) := by
      unfold sweep
      rw [hR1]
      simp [hkeep]
    rw [self, hsweep]
    rfl
  · intro tgt m h1 h2
    unfold sweep keepMonitor
    rw [h1]
    simp [h2]

/-- Monitor used by the C9 witness: one subscriber, live series state. -/
def c9Monitor : TargetMonitor := ⟨[(1, true)], none, [("K", initState)]⟩

/-- Registry used by the C9 witness. -/
def c9Registry : Registry := fun t => if t = "T" then some c9Monitor else none

/-- Witness for C9: unsubscribe at time 0, sweep at time 50 with grace 100,
resubscribe at time 60 — series state survives unchanged. -/
theorem c9_grace_period_preserves_series_witness :
    c9Registry "T" = some c9Monitor ∧
    c9Monitor.subscribers.isEmpty = false ∧
    (50 : ℤ) - 0 ≤ 100 ∧
    ((updateSubscription (sweep (updateSubscription c9Registry "T" 1 false true 0)
        50 100) "T" 1 true true 60) "T").map TargetMonitor.series =
      some c9Monitor.series :=
  ⟨by simp [c9Registry], rfl, by omega,
    (c9_grace_period_preserves_series c9Registry "T" 1 true 0 50 60 100 c9Monitor
      (by simp [c9Registry]) rfl (by omega)).1⟩

lemma filterMap_id_replicate_none (n : ℕ) :
    (List.replicate n (none : Option ℚ)).filterMap id = [] := by
  rw [List.filterMap_eq_nil_iff]
  intro a ha
  rw [List.eq_of_mem_replicate ha]
  rfl

lemma filterMap_id_length_set (l : List (Option ℚ)) (i : ℕ) (x : ℚ) (h : i < l.length) :
    ((l.set i (some x)).filterMap id).length =
      (l.filterMap id).length + (if l.getD i none = none then 1 else 0) := by
  induction l generalizing i with
  | nil => simp at h
  | cons a t ih =>
    cases i with
    | zero =>
      cases a with
      | none => simp [List.filterMap_cons]
      | some y => simp [List.filterMap_cons]
    | succ n =>
      have hn : n < t.length := by simpa using h
      have hrec := ih n hn
      cases a with
      | none =>
        simp only [List.set_cons_succ, List.filterMap_cons, id, List.getD_cons_succ]
        exact hrec
      | some y =>
        simp only [List.set_cons_succ, List.filterMap_cons, id, List.getD_cons_succ,
          List.length_cons]
        omega

lemma filterMap_id_perm_set (l : List (Option ℚ)) (i : ℕ) (x y : ℚ)
    (hy : l.getD i none = some y) :
    ((l.set i (some x)).filterMap id ++ [y]).Perm (l.filterMap id ++ [x]) := by
  induction l generalizing i with
  | nil => simp [List.getD] at hy
  | cons a t ih =>
    cases i with
    | zero =>
      have ha : a = some y := by simpa using hy
      subst ha
      show List.Perm (x :: (t.filterMap id ++ [y])) (y :: (t.filterMap id ++ [x]))
      exact (((List.perm_append_singleton y _).cons x).trans
        (List.Perm.swap y x _)).trans (((List.perm_append_singleton x _).symm).cons y)
    | succ n =>
      have hy2 : t.getD n none = some y := by simpa using hy
      cases a with
      | none =>
        show List.Perm ((t.set n (some x)).filterMap id ++ [y]) (t.filterMap id ++ [x])
        exact ih n hy2
      | some z =>
        show List.Perm (z :: ((t.set n (some x)).filterMap id ++ [y]))
          (z :: (t.filterMap id ++ [x]))
        exact (ih n hy2).cons z

lemma retained_length (evs : List Event) :
    (retained (runUpdates evs)).length = min evs.length MaxSamples := by
  induction evs using List.reverseRecOn with
  | nil =>
    show ((List.replicate MaxSamples (none : Option ℚ)).filterMap id).length = _
    rw [filterMap_id_replicate_none]
    simp
  | append_singleton evs e ih =>
    rw [runUpdates_append]
    unfold retained at ih ⊢
    rw [update_cells]
    have hposlt : ((runUpdates evs).pos + 1) % MaxSamples < (runUpdates evs).cells.length := by
      rw [run_cells_length]
      exact Nat.mod_lt _ (by decide)
    rw [filterMap_id_length_set _ _ _ hposlt]
    have hpos := run_pos evs
    have hjlt : ((runUpdates evs).pos + 1) % MaxSamples < MaxSamples :=
      Nat.mod_lt _ (by decide)
    have hcell := run_cells_getD evs _ hjlt
    rw [ih]
    by_cases hlen : evs.length < MaxSamples
    · have hno : ¬ 1 ≤ lastHit evs.length ((evs.length % MaxSamples + 1) % MaxSamples) := by
        simp only [lastHit, MaxSamples] at hlen ⊢
        omega
      have hnone : (runUpdates evs).cells.getD (((runUpdates evs).pos + 1) % MaxSamples) none
          = none := by
        rw [hcell, hpos, if_neg hno]
      rw [hnone, if_pos rfl]
      simp only [List.length_append, List.length_singleton]
      simp only [MaxSamples] at hlen ⊢
      omega
    · have hyes : 1 ≤ lastHit evs.length ((evs.length % MaxSamples + 1) % MaxSamples) := by
        simp only [lastHit, MaxSamples] at hlen ⊢
        omega
      have hsome : (runUpdates evs).cells.getD (((runUpdates evs).pos + 1) % MaxSamples) none
          ≠ none := by
        rw [hcell, hpos, if_pos hyes]
        simp
      rw [if_neg hsome]
      simp only [List.length_append, List.length_singleton]
      simp only [MaxSamples] at hlen ⊢
      omega

/-- C6: the sample window retains exactly min(events, MaxSamples) timestamps
— never more than the capacity — and once full, each new event's timestamp
replaces exactly the oldest retained timestamp (the one recorded
MaxSamples events earlier): FIFO eviction. -/
theorem c6_window_capacity_fifo (evs : List Event) (e : Event) :
    (retained (runUpdates evs)).length = min evs.length MaxSamples ∧
    (MaxSamples ≤ evs.length →
      (retained (runUpdates (evs ++ [e])) : Multiset ℚ) +
          {(evs.map msOfEvent).getD (evs.length - MaxSamples) 0} =
        (retained (runUpdates evs) : Multiset ℚ) + {msOfEvent e}) := by
  refine ⟨retained_length evs, fun hlen => ?_⟩
  have hjlt : ((runUpdates evs).pos + 1) % MaxSamples < MaxSamples :=
    Nat.mod_lt _ (by decide)
  have hcell := run_cells_getD evs _ hjlt
  have hpos := run_pos evs
  have hyes : 1 ≤ lastHit evs.length ((evs.length % MaxSamples + 1) % MaxSamples) := by
    simp only [lastHit, MaxSamples] at hlen ⊢
    omega
  have hidx : lastHit evs.length ((evs.length % MaxSamples + 1) % MaxSamples) - 1
      = evs.length - MaxSamples := by
    simp only [lastHit, MaxSamples] at hlen ⊢
    omega
  have hold : (runUpdates evs).cells.getD (((runUpdates evs).pos + 1) % MaxSamples) none
      = some ((evs.map msOfEvent).getD (evs.length - MaxSamples) 0) := by
    rw [hcell, hpos, if_pos hyes, hidx]
  have hperm := filterMap_id_perm_set (runUpdates evs).cells
    (((runUpdates evs).pos + 1) % MaxSamples) (msOfEvent e)
    ((evs.map msOfEvent).getD (evs.length - MaxSamples) 0) hold
  unfold retained
  rw [runUpdates_append, update_cells,
    ← Multiset.coe_singleton ((evs.map msOfEvent).getD (evs.length - MaxSamples) 0),
    ← Multiset.coe_singleton (msOfEvent e), Multiset.coe_add, Multiset.coe_add]
  exact Multiset.coe_eq_coe.mpr hperm

/-- Witness for C6: 1200 inserted events leave exactly 1000 retained
samples, and insertion 1201 evicts exactly the oldest retained timestamp. -/
theorem c6_window_capacity_fifo_witness :
    MaxSamples ≤ (List.replicate 1200 (evAtMs 0)).length ∧
    (retained (runUpdates (List.replicate 1200 (evAtMs 0)))).length =
      min (List.replicate 1200 (evAtMs 0)).length MaxSamples ∧
    (retained (runUpdates (List.replicate 1200 (evAtMs 0) ++ [evAtMs 5])) : Multiset ℚ) +
        {((List.replicate 1200 (evAtMs 0)).map msOfEvent).getD
          ((List.replicate 1200 (evAtMs 0)).length - MaxSamples) 0} =
      (retained (runUpdates (List.replicate 1200 (evAtMs 0))) : Multiset ℚ) +
        {msOfEvent (evAtMs 5)} :=
  ⟨by rw [List.length_replicate]; decide,
   (c6_window_capacity_fifo (List.replicate 1200 (evAtMs 0)) (evAtMs 5)).1,
   (c6_window_capacity_fifo (List.replicate 1200 (evAtMs 0)) (evAtMs 5)).2
     (by rw [List.length_replicate]; decide)⟩

/-- Event i of the C2 counterexample run: timestamps decrease by 1ms per
event (clock running backwards), 501 events total. -/
def c2EventAt (i : ℕ) : Event := ⟨"T", "K", ((500 : ℤ) - i) * 1000000, 0, []⟩

/-- The 501 strictly decreasing events of the C2 counterexample. -/
def c2Events : List Event := (List.range 501).map c2EventAt

lemma msOf_c2 (i : ℕ) : msOfEvent (c2EventAt i) = (500 : ℚ) - i := by
  unfold msOfEvent msOf c2EventAt
  push_cast
  rw [mul_div_assoc, div_self (by norm_num), mul_one]

lemma c2_range_split (k : ℕ) :
    (List.range (k + 1)).map c2EventAt =
      ((List.range k).map c2EventAt) ++ [c2EventAt k] := by
  rw [List.range_succ, List.map_append, List.map_singleton]

lemma c2_stats_zero : ∀ k, k ≤ 501 →
    (runUpdates ((List.range k).map c2EventAt)).min = 0 ∧
    (runUpdates ((List.range k).map c2EventAt)).max = 0 ∧
    (runUpdates ((List.range k).map c2EventAt)).avg = 0 := by
  intro k
  induction k with
  | zero => exact fun _ => ⟨rfl, rfl, rfl⟩
  | succ n ih =>
    intro hk
    obtain ⟨hmin, hmax, havg⟩ := ih (by omega)
    rw [c2_range_split, runUpdates_append]
    rcases Nat.eq_zero_or_pos n with hn0 | hn0
    · subst hn0
      have hz : truncToInt (computeIntervalMs (runUpdates ((List.range 0).map c2EventAt))
          (msOfEvent (c2EventAt 0)) * (millisecondsToNanoseconds : ℚ)) = 0 := by
        rw [show runUpdates ((List.range 0).map c2EventAt) = initState from rfl,
          computeIntervalMs_init, zero_mul, truncToInt_zero]
      refine ⟨?_, ?_, ?_⟩
      · rw [update_min_of_eq _ _ rfl, hz]
      · rw [update_max_of_eq _ _ rfl, hz]
      · rw [update_avg_of_eq _ _ rfl, hz]
    · obtain ⟨m, rfl⟩ : ∃ m, n = m + 1 := ⟨n - 1, by omega⟩
      have hcnt : (runUpdates ((List.range (m + 1)).map c2EventAt)).count ≠ 0 := by
        rw [runUpdates_count]
        simp
      have hint : computeIntervalMs (runUpdates ((List.range (m + 1)).map c2EventAt))
          (msOfEvent (c2EventAt (m + 1))) = 0 := by
        have hcell := run_last_cell ((List.range m).map c2EventAt) (c2EventAt m)
        rw [← c2_range_split] at hcell
        unfold computeIntervalMs
        rw [hcell]
        show (if 0 < (runUpdates ((List.range (m + 1)).map c2EventAt)).count then
            if msOfEvent (c2EventAt (m + 1)) - msOfEvent (c2EventAt m) < 0 then 0
            else msOfEvent (c2EventAt (m + 1)) - msOfEvent (c2EventAt m)
          else 0) = 0
        rw [if_pos (by rw [runUpdates_count]; simp), if_pos ?neg]
        case neg =>
          rw [msOf_c2, msOf_c2]
          push_cast
          linarith
      have hz : truncToInt (computeIntervalMs (runUpdates ((List.range (m + 1)).map c2EventAt))
          (msOfEvent (c2EventAt (m + 1))) * (millisecondsToNanoseconds : ℚ)) = 0 := by
        rw [hint, zero_mul, truncToInt_zero]
      refine ⟨?_, ?_, ?_⟩
      · rw [update_min_of_ne _ _ hcnt, hz, hmin]
        simp
      · rw [update_max_of_ne _ _ hcnt, hz, hmax]
        simp
      · rw [update_avg_of_ne _ _ hcnt, hz, havg]
        simp [Int.zero_tdiv]

lemma c2_length : c2Events.length = 501 := by
  simp [c2Events]

lemma c2_map_getD (i : ℕ) (h : i < 501) :
    (c2Events.map msOfEvent).getD i 0 = (500 : ℚ) - i := by
  unfold c2Events
  rw [List.map_map, List.getD_eq_getElem?_getD, List.getElem?_map, List.getElem?_range h]
  simp [msOf_c2]

lemma c2_cell_first :
    (runUpdates c2Events).cells.getD ((501 + 0) % MaxSamples) none = some 0 := by
  have h := run_cells_getD c2Events ((501 + 0) % MaxSamples) (by decide)
  rw [c2_length] at h
  rw [h, if_pos (by decide),
    show lastHit 501 ((501 + 0) % MaxSamples) - 1 = 500 from by decide,
    c2_map_getD 500 (by decide)]
  norm_num

lemma c2_cell_last :
    (runUpdates c2Events).cells.getD ((501 + 500) % MaxSamples) none = some 500 := by
  have h := run_cells_getD c2Events ((501 + 500) % MaxSamples) (by decide)
  rw [c2_length] at h
  rw [h, if_pos (by decide),
    show lastHit 501 ((501 + 500) % MaxSamples) - 1 = 0 from by decide,
    c2_map_getD 0 (by decide)]
  norm_num

lemma c2_cell_mid (i : ℕ) (h1 : 1 ≤ i) (h2 : i < 500) :
    (runUpdates c2Events).cells.getD ((501 + i) % MaxSamples) none = none := by
  have hjlt : (501 + i) % MaxSamples < MaxSamples := Nat.mod_lt _ (by decide)
  have h := run_cells_getD c2Events ((501 + i) % MaxSamples) hjlt
  rw [c2_length] at h
  rw [h, if_neg]
  simp only [lastHit, MaxSamples]
  omega

set_option maxRecDepth 4000 in
lemma c2_timestamps :
    (List.range 501).filterMap
      (fun i => (runUpdates c2Events).cells.getD ((501 + i) % MaxSamples) none) = [0, 500] := by
  have hrange : List.range 501 = ([0] ++ List.range' 1 499) ++ [500] := by decide
  rw [hrange, List.filterMap_append, List.filterMap_append]
  have h1 : List.filterMap
      (fun i => (runUpdates c2Events).cells.getD ((501 + i) % MaxSamples) none) [0]
      = [(0 : ℚ)] := by
    simp only [List.filterMap_cons, List.filterMap_nil]
    rw [c2_cell_first]
  have h2 : List.filterMap
      (fun i => (runUpdates c2Events).cells.getD ((501 + i) % MaxSamples) none)
      (List.range' 1 499) = [] := by
    rw [List.filterMap_eq_nil_iff]
    intro a ha
    rw [List.mem_range'] at ha
    obtain ⟨i, hi, rfl⟩ := ha
    exact c2_cell_mid (1 + 1 * i) (by omega) (by omega)
  have h3 : List.filterMap
      (fun i => (runUpdates c2Events).cells.getD ((501 + i) % MaxSamples) none) [500]
      = [(500 : ℚ)] := by
    simp only [List.filterMap_cons, List.filterMap_nil]
    rw [c2_cell_last]
  rw [h1, h2, h3]
  rfl

lemma c2_percentile :
    calculatePercentile (runUpdates c2Events) P90Percentile = 500 := by
  unfold calculatePercentile
  rw [runUpdates_count, c2_length, run_pos, c2_length,
    show (501 : ℕ) % MaxSamples = 501 from by decide, if_neg (by decide), c2_timestamps]
  decide

/-- C2: after 501 events whose timestamps decrease by 1ms each (clock
anomaly), the recorded min, max and avg are all 0 (every clamped interval is
zero), yet the recomputed p90 is 500ms (500000000 ns): the ring walk pairs
the newest timestamp with the oldest retained one and keeps their positive
difference, so min ≤ p90 ≤ max is violated after an update with more than
one recorded interval. -/
theorem c2_p90_exceeds_max :
    (runUpdates c2Events).count = 501 ∧
    (runUpdates c2Events).min = 0 ∧
    (runUpdates c2Events).max = 0 ∧
    (runUpdates c2Events).avg = 0 ∧
    (runUpdates c2Events).p90 = 500000000 ∧
    ¬ (runUpdates c2Events).p90 ≤ (runUpdates c2Events).max := by
  have hstats := c2_stats_zero 501 (le_refl _)
  have hc2 : (List.range 501).map c2EventAt = c2Events := rfl
  rw [hc2] at hstats
  obtain ⟨hmin, hmax, havg⟩ := hstats
  have hp90 : (runUpdates c2Events).p90 = 500000000 := by
    have hsplit : c2Events = ((List.range 500).map c2EventAt) ++ [c2EventAt 500] := by
      show (List.range 501).map c2EventAt = _
      exact c2_range_split 500
    rw [hsplit, runUpdates_append, update_p90, ← runUpdates_append, ← hsplit, c2_percentile]
    decide
  refine ⟨?_, hmin, hmax, havg, hp90, by rw [hp90, hmax]; decide⟩
  rw [runUpdates_count, c2_length]
